import Mathlib

/-!
Verification of the market-monitoring and signal engine of the
crypto-trading-analyzer repository: the technical-indicator library
(TechnicalIndicators, src/unnamed/part_002), the price monitor
(PriceMonitor, src/src/monitors/PriceMonitor.ts) and the arbitrage scanner
(ExchangeManager.calculateArbitrageOpportunities, src/unnamed/part_000).

Numbers are embedded as exact rationals together with the IEEE-754 special
values NaN, +Infinity and -Infinity that JavaScript arithmetic produces on
zero denominators; rounding of finite values is idealised away. Wall-clock
reads (new Date) become an explicit parameter, and Math.sqrt an abstract
function parameter on the rationals.
-/

/-- JavaScript number in the shallow embedding: an exact rational, or one of
the special values `NaN`, `+Infinity`, `-Infinity` that JavaScript arithmetic
can produce (finite-precision rounding is idealised away). -/
inductive JSNum where
  | num (q : ℚ)
  | nan
  | inf
  | neginf
deriving DecidableEq

/-- Unary minus on JavaScript numbers. -/
def jsNeg : JSNum → JSNum
  | .num q => .num (-q)
  | .nan => .nan
  | .inf => .neginf
  | .neginf => .inf

/-- JavaScript `+`. -/
def jsAdd : JSNum → JSNum → JSNum
  | .nan, _ => .nan
  | _, .nan => .nan
  | .inf, .neginf => .nan
  | .neginf, .inf => .nan
  | .inf, _ => .inf
  | _, .inf => .inf
  | .neginf, _ => .neginf
  | _, .neginf => .neginf
  | .num a, .num b => .num (a + b)

/-- JavaScript `-`. -/
def jsSub (a b : JSNum) : JSNum := jsAdd a (jsNeg b)

/-- JavaScript `*`. -/
def jsMul : JSNum → JSNum → JSNum
  | .nan, _ => .nan
  | _, .nan => .nan
  | .num a, .num b => .num (a * b)
  | .inf, .num b => if b = 0 then .nan else if 0 < b then .inf else .neginf
  | .num a, .inf => if a = 0 then .nan else if 0 < a then .inf else .neginf
  | .neginf, .num b => if b = 0 then .nan else if 0 < b then .neginf else .inf
  | .num a, .neginf => if a = 0 then .nan else if 0 < a then .neginf else .inf
  | .inf, .inf => .inf
  | .inf, .neginf => .neginf
  | .neginf, .inf => .neginf
  | .neginf, .neginf => .inf

/-- JavaScript `/`: division by zero yields `Infinity`, `-Infinity` or `NaN`
(the embedding has no signed zero, so a zero denominator is treated as `+0`). -/
def jsDiv : JSNum → JSNum → JSNum
  | .nan, _ => .nan
  | _, .nan => .nan
  | .num a, .num b =>
      if b = 0 then (if 0 < a then .inf else if a < 0 then .neginf else .nan)
      else .num (a / b)
  | .num _, .inf => .num 0
  | .num _, .neginf => .num 0
  | .inf, .num b => if 0 ≤ b then .inf else .neginf
  | .neginf, .num b => if 0 ≤ b then .neginf else .inf
  | .inf, .inf => .nan
  | .inf, .neginf => .nan
  | .neginf, .inf => .nan
  | .neginf, .neginf => .nan

/-- JavaScript `Math.abs`. -/
def jsAbs : JSNum → JSNum
  | .num q => .num |q|
  | .nan => .nan
  | .inf => .inf
  | .neginf => .inf

/-- JavaScript `<`: any comparison with `NaN` is false. -/
def jsLtB : JSNum → JSNum → Bool
  | .nan, _ => false
  | _, .nan => false
  | .num a, .num b => decide (a < b)
  | .num _, .inf => true
  | .neginf, .num _ => true
  | .neginf, .inf => true
  | _, _ => false

/-- JavaScript `<=`: any comparison with `NaN` is false. -/
def jsLeB : JSNum → JSNum → Bool
  | .nan, _ => false
  | _, .nan => false
  | .num a, .num b => decide (a ≤ b)
  | .num _, .inf => true
  | .neginf, _ => true
  | .inf, .inf => true
  | _, _ => false

/-- JavaScript `>`. -/
def jsGtB (a b : JSNum) : Bool := jsLtB b a

/-- JavaScript `>=`. -/
def jsGeB (a b : JSNum) : Bool := jsLeB b a

/-- JavaScript `Math.max` of two values (`NaN` propagates). -/
def jsMax : JSNum → JSNum → JSNum
  | .nan, _ => .nan
  | _, .nan => .nan
  | .num a, .num b => .num (max a b)
  | .inf, _ => .inf
  | _, .inf => .inf
  | .neginf, b => b
  | a, .neginf => a

/-- JavaScript `Math.min` of two values (`NaN` propagates). -/
def jsMin : JSNum → JSNum → JSNum
  | .nan, _ => .nan
  | _, .nan => .nan
  | .num a, .num b => .num (min a b)
  | .neginf, _ => .neginf
  | _, .neginf => .neginf
  | .inf, b => b
  | a, .inf => a

/-- JavaScript `Math.sqrt`, parameterised by an abstract square root `sqrtFn`
on the nonnegative rationals (the exact square root of a rational is in
general irrational; every theorem below only needs the value of `sqrtFn` at
concrete points such as `sqrtFn 0 = 0`). A negative argument yields `NaN`. -/
def jsSqrt (sqrtFn : ℚ → ℚ) : JSNum → JSNum
  | .num q => if q < 0 then .nan else .num (sqrtFn q)
  | .nan => .nan
  | .inf => .inf
  | .neginf => .nan

/-- JavaScript `parseFloat(x.toFixed(3))`: ideal rounding to three decimal
places; `Infinity` and `NaN` round-trip through their string forms. -/
def jsToFixed3 : JSNum → JSNum
  | .num q => .num (((round (q * 1000) : ℤ) : ℚ) / 1000)
  | x => x

/-- JavaScript `parseFloat(x.toFixed(2))`: ideal rounding to two decimal
places; `Infinity` and `NaN` round-trip through their string forms. -/
def jsToFixed2 : JSNum → JSNum
  | .num q => .num (((round (q * 100) : ℤ) : ℚ) / 100)
  | x => x

/-- JavaScript `array.reduce((a, b) => a + b, 0)`. -/
def jsSum (l : List JSNum) : JSNum := l.foldl jsAdd (.num 0)

/-! ## TechnicalIndicators (src/unnamed/part_002)

Each `for (let i = start; i < stop; i++)` loop that pushes one value per
iteration becomes a `map` over `List.range' start (stop - start)`, and
`data.slice(s, e)` becomes `(data.drop s).take (e - s)`. Out-of-range index
reads (JavaScript `undefined`, whose arithmetic is `NaN`) become
`List.getD _ .nan`. -/

/-- Model of TechnicalIndicators.calculateSMA (src/unnamed/part_002 lines
11-20): trailing arithmetic mean over a window of `period`, one output per
index from `period - 1` to `data.length - 1`. -/
def calculateSMA (data : List JSNum) (period : ℕ) : List JSNum :=
  if data.length < period then []
  else
    (List.range' (period - 1) (data.length + 1 - period)).map fun i =>
      jsDiv (jsSum ((data.drop (i + 1 - period)).take period)) (.num period)

/-- Model of TechnicalIndicators.calculateEMA (src/unnamed/part_002 lines
22-33): seeded with the first data point, then
`ema[i] = data[i] * m + ema[i-1] * (1 - m)` with `m = 2 / (period + 1)`. -/
def calculateEMA (data : List JSNum) (period : ℕ) : List JSNum :=
  if data.length < period then []
  else
    match data with
    | [] => []
    | d :: rest =>
        let m : ℚ := 2 / ((period : ℚ) + 1)
        List.scanl (fun prev x => jsAdd (jsMul x (.num m)) (jsMul prev (.num (1 - m)))) d rest

/-- Wilder smoothing loop of TechnicalIndicators.calculateRSI
(src/unnamed/part_002 lines 58-71), one output per remaining change. -/
def rsiLoop (period : ℕ) : List JSNum → JSNum → JSNum → List JSNum
  | [], _, _ => []
  | c :: cs, avgGain, avgLoss =>
      let p : ℚ := period
      let avgGain' :=
        if jsGtB c (.num 0) then jsDiv (jsAdd (jsMul avgGain (.num (p - 1))) c) (.num p)
        else jsDiv (jsMul avgGain (.num (p - 1))) (.num p)
      let avgLoss' :=
        if jsGtB c (.num 0) then jsDiv (jsMul avgLoss (.num (p - 1))) (.num p)
        else jsDiv (jsAdd (jsMul avgLoss (.num (p - 1))) (jsAbs c)) (.num p)
      let rs := jsDiv avgGain' avgLoss'
      jsSub (.num 100) (jsDiv (.num 100) (jsAdd (.num 1) rs))
        :: rsiLoop period cs avgGain' avgLoss'

/-- Model of TechnicalIndicators.calculateRSI (src/unnamed/part_002 lines
35-74): seed average gain and loss from the first `period` deltas, then the
Wilder smoothing loop. There is no special case for a zero average loss: the
ratio `rs = avgGain / avgLoss` follows JavaScript division. -/
def calculateRSI (data : List JSNum) (period : ℕ) : List JSNum :=
  if data.length < period + 1 then []
  else
    let changes := List.zipWith jsSub (data.drop 1) data
    let seed := (changes.take period).foldl
      (fun gl c =>
        if jsGtB c (.num 0) then (jsAdd gl.1 c, gl.2) else (gl.1, jsAdd gl.2 (jsAbs c)))
      ((JSNum.num 0), (JSNum.num 0))
    rsiLoop period (changes.drop period) (jsDiv seed.1 (.num period)) (jsDiv seed.2 (.num period))

/-- Result record of TechnicalIndicators.calculateMACD. -/
structure MACDResult where
  macd : List JSNum
  signal : List JSNum
  histogram : List JSNum
deriving DecidableEq

/-- Model of TechnicalIndicators.calculateMACD (src/unnamed/part_002 lines
76-106). The source left-pads the shorter fast EMA with `fastEMA[0]` via
`unshift`; when the fast EMA is empty that element is `undefined`, whose
arithmetic yields `NaN`, hence the `.nan` default. The two
`Math.min`-bounded loops become `zipWith`. -/
def calculateMACD (data : List JSNum) (fastPeriod slowPeriod signalPeriod : ℕ) : MACDResult :=
  let fastEMA := calculateEMA data fastPeriod
  let slowEMA := calculateEMA data slowPeriod
  let fastEMA' :=
    if fastEMA.length < slowEMA.length then
      List.replicate (slowEMA.length - fastEMA.length) (fastEMA.headD .nan) ++ fastEMA
    else fastEMA
  let macdLine := List.zipWith jsSub fastEMA' slowEMA
  let signalLine := calculateEMA macdLine signalPeriod
  let histogram := List.zipWith jsSub macdLine signalLine
  ⟨macdLine, signalLine, histogram⟩

/-- Result record of TechnicalIndicators.calculateBollingerBands. -/
structure BollingerBands where
  upper : List JSNum
  middle : List JSNum
  lower : List JSNum
deriving DecidableEq

/-- Model of TechnicalIndicators.calculateBollingerBands (src/unnamed/part_002
lines 108-131): middle is the SMA; upper and lower are the recomputed window
mean plus and minus `multiplier` population standard deviations. -/
def calculateBollingerBands (sqrtFn : ℚ → ℚ) (data : List JSNum) (period : ℕ)
    (multiplier : ℚ) : BollingerBands :=
  let sma := calculateSMA data period
  let rows := (List.range' (period - 1) (data.length + 1 - period)).map fun i =>
    let slice := (data.drop (i + 1 - period)).take period
    let mean := jsDiv (jsSum slice) (.num period)
    let variance := jsDiv
      (slice.foldl (fun acc b => jsAdd acc (jsMul (jsSub b mean) (jsSub b mean))) (.num 0))
      (.num period)
    let stdDev := jsSqrt sqrtFn variance
    (jsAdd mean (jsMul stdDev (.num multiplier)), jsSub mean (jsMul stdDev (.num multiplier)))
  ⟨rows.map Prod.fst, sma, rows.map Prod.snd⟩

/-- Result record of TechnicalIndicators.calculateStochastic. -/
structure StochasticResult where
  k : List JSNum
  d : List JSNum
deriving DecidableEq

/-- Model of TechnicalIndicators.calculateStochastic (src/unnamed/part_002
lines 133-156): `%K` from the highest high and lowest low of the trailing
window (`Math.max`/`Math.min` spread over a slice, with `-Infinity` and
`Infinity` as the fold units), `%D` the SMA of `%K`. -/
def calculateStochastic (high low close : List JSNum) (kPeriod dPeriod : ℕ) : StochasticResult :=
  let k := (List.range' (kPeriod - 1) (close.length + 1 - kPeriod)).map fun i =>
    let highestHigh := ((high.drop (i + 1 - kPeriod)).take kPeriod).foldl jsMax .neginf
    let lowestLow := ((low.drop (i + 1 - kPeriod)).take kPeriod).foldl jsMin .inf
    jsMul (jsDiv (jsSub (close.getD i .nan) lowestLow) (jsSub highestHigh lowestLow)) (.num 100)
  ⟨k, calculateSMA k dPeriod⟩

/-- Model of TechnicalIndicators.calculateATR (src/unnamed/part_002 lines
158-170): SMA of the true ranges. -/
def calculateATR (high low close : List JSNum) (period : ℕ) : List JSNum :=
  let trueRanges := (List.range' 1 (high.length - 1)).map fun i =>
    let tr1 := jsSub (high.getD i .nan) (low.getD i .nan)
    let tr2 := jsAbs (jsSub (high.getD i .nan) (close.getD (i - 1) .nan))
    let tr3 := jsAbs (jsSub (low.getD i .nan) (close.getD (i - 1) .nan))
    jsMax (jsMax tr1 tr2) tr3
  calculateSMA trueRanges period

/-- Model of TechnicalIndicators.calculateWilliamsR (src/unnamed/part_002
lines 172-189). -/
def calculateWilliamsR (high low close : List JSNum) (period : ℕ) : List JSNum :=
  (List.range' (period - 1) (close.length + 1 - period)).map fun i =>
    let highestHigh := ((high.drop (i + 1 - period)).take period).foldl jsMax .neginf
    let lowestLow := ((low.drop (i + 1 - period)).take period).foldl jsMin .inf
    jsMul (jsDiv (jsSub highestHigh (close.getD i .nan)) (jsSub highestHigh lowestLow))
      (.num (-100))

/-- Model of TechnicalIndicators.calculateCCI (src/unnamed/part_002 lines
191-209); the constant `0.015` is the rational `3 / 200`. -/
def calculateCCI (high low close : List JSNum) (period : ℕ) : List JSNum :=
  let typicalPrices := (List.range high.length).map fun i =>
    jsDiv (jsAdd (jsAdd (high.getD i .nan) (low.getD i .nan)) (close.getD i .nan)) (.num 3)
  let sma := calculateSMA typicalPrices period
  (List.range' (period - 1) (typicalPrices.length + 1 - period)).map fun i =>
    let slice := (typicalPrices.drop (i + 1 - period)).take period
    let mean := sma.getD (i + 1 - period) .nan
    let meanDeviation := jsDiv
      (slice.foldl (fun sum tp => jsAdd sum (jsAbs (jsSub tp mean))) (.num 0)) (.num period)
    jsDiv (jsSub (typicalPrices.getD i .nan) mean) (jsMul (.num (3 / 200)) meanDeviation)

/-- One detected support or resistance level. -/
structure SupportResistanceLevel where
  price : JSNum
  index : ℕ
  strength : ℕ
deriving DecidableEq

/-- Result record of TechnicalIndicators.detectSupportResistance. -/
structure SupportResistance where
  support : List SupportResistanceLevel
  resistance : List SupportResistanceLevel
deriving DecidableEq

/-- Model of TechnicalIndicators.detectSupportResistance (src/unnamed/part_002
lines 211-249): local extremum scan over `[i - lookback, i + lookback]`. -/
def detectSupportResistance (data : List JSNum) (lookback : ℕ) : SupportResistance :=
  let idxs := List.range' lookback (data.length - lookback - lookback)
  let resistance := idxs.filterMap fun i =>
    let currentPrice := data.getD i .nan
    let leftPrices := (data.drop (i - lookback)).take lookback
    let rightPrices := (data.drop (i + 1)).take lookback
    if leftPrices.all (fun p => jsLeB p currentPrice)
        && rightPrices.all (fun p => jsLeB p currentPrice) then
      some ⟨currentPrice, i, 1⟩
    else none
  let support := idxs.filterMap fun i =>
    let currentPrice := data.getD i .nan
    let leftPrices := (data.drop (i - lookback)).take lookback
    let rightPrices := (data.drop (i + 1)).take lookback
    if leftPrices.all (fun p => jsGeB p currentPrice)
        && rightPrices.all (fun p => jsGeB p currentPrice) then
      some ⟨currentPrice, i, 1⟩
    else none
  ⟨support, resistance⟩

/-! ## Signal aggregation (TechnicalIndicators.generateTradingSignals) -/

/-- Direction of one component vote. -/
inductive SignalAction where
  | BUY
  | SELL
deriving DecidableEq

/-- Overall verdict of the aggregated signals. -/
inductive OverallSignal where
  | BULLISH
  | BEARISH
  | NEUTRAL
deriving DecidableEq

/-- One entry of the `signals` array. -/
structure SignalEntry where
  type : String
  signal : SignalAction
  reason : String
deriving DecidableEq

/-- Result record of TechnicalIndicators.generateTradingSignals. -/
structure TradingSignals where
  overall : OverallSignal
  strength : ℚ
  signals : List SignalEntry
deriving DecidableEq

/-- Component votes of TechnicalIndicators.generateTradingSignals
(src/unnamed/part_002 lines 297-333), in source order (RSI, MACD, Bollinger);
the boolean is true for a bullish vote. Each guard mirrors the source's
truthiness-plus-length check on the indicator field it reads. -/
def signalVotes (rsi : List JSNum) (macd : MACDResult) (bollinger : BollingerBands)
    (closes : List JSNum) : List (SignalEntry × Bool) :=
  let rsiVote : Option (SignalEntry × Bool) :=
    if 0 < rsi.length then
      let lastRSI := rsi.getD (rsi.length - 1) .nan
      if jsLtB lastRSI (.num 30) then some (⟨"RSI", .BUY, "RSI超卖"⟩, true)
      else if jsGtB lastRSI (.num 70) then some (⟨"RSI", .SELL, "RSI超买"⟩, false)
      else none
    else none
  let macdVote : Option (SignalEntry × Bool) :=
    if 2 ≤ macd.histogram.length then
      let currentHist := macd.histogram.getD (macd.histogram.length - 1) .nan
      let prevHist := macd.histogram.getD (macd.histogram.length - 2) .nan
      if jsGtB currentHist (.num 0) && jsLeB prevHist (.num 0) then
        some (⟨"MACD", .BUY, "MACD金叉"⟩, true)
      else if jsLtB currentHist (.num 0) && jsGeB prevHist (.num 0) then
        some (⟨"MACD", .SELL, "MACD死叉"⟩, false)
      else none
    else none
  let bollingerVote : Option (SignalEntry × Bool) :=
    if 0 < bollinger.upper.length then
      let lastPrice := closes.getD (closes.length - 1) .nan
      let lastUpper := bollinger.upper.getD (bollinger.upper.length - 1) .nan
      let lastLower := bollinger.lower.getD (bollinger.lower.length - 1) .nan
      if jsLeB lastPrice lastLower then some (⟨"Bollinger", .BUY, "价格触及下轨"⟩, true)
      else if jsGeB lastPrice lastUpper then some (⟨"Bollinger", .SELL, "价格触及上轨"⟩, false)
      else none
    else none
  [rsiVote, macdVote, bollingerVote].filterMap id

/-- Model of TechnicalIndicators.generateTradingSignals (src/unnamed/part_002
lines 287-348): counts bullish and bearish votes; with at least one vote,
`strength = |bullishRatio - 0.5| * 2` and the overall verdict follows the
`0.6` and `0.4` thresholds, otherwise the NEUTRAL defaults stand. -/
def generateTradingSignals (rsi : List JSNum) (macd : MACDResult) (bollinger : BollingerBands)
    (closes : List JSNum) : TradingSignals :=
  let votes := signalVotes rsi macd bollinger closes
  let bullishSignals := votes.countP fun v => v.2
  let bearishSignals := votes.countP fun v => !v.2
  let totalSignals := bullishSignals + bearishSignals
  if totalSignals = 0 then ⟨.NEUTRAL, 0, votes.map Prod.fst⟩
  else
    let bullishFrac : ℚ := (bullishSignals : ℚ) / (totalSignals : ℚ)
    let strength := |bullishFrac - 1 / 2| * 2
    let overall : OverallSignal :=
      if 3 / 5 < bullishFrac then .BULLISH
      else if bullishFrac < 2 / 5 then .BEARISH
      else .NEUTRAL
    ⟨overall, strength, votes.map Prod.fst⟩

/-! ## Candles and the full indicator snapshot -/

/-- One OHLCV candle, the source's `OHLCVArray`
`[timestamp, open, high, low, close, volume]`. -/
structure Candle where
  ts : ℤ
  openP : ℚ
  highP : ℚ
  lowP : ℚ
  closeP : ℚ
  volume : ℚ
deriving DecidableEq

/-- Result record of TechnicalIndicators.calculateAll. -/
structure TechnicalIndicatorsResult where
  sma20 : List JSNum
  sma50 : List JSNum
  ema12 : List JSNum
  ema26 : List JSNum
  rsi : List JSNum
  macd : MACDResult
  bollinger : BollingerBands
  stochastic : StochasticResult
  atr : List JSNum
  williamsR : List JSNum
  cci : List JSNum
  supportResistance : SupportResistance
  signals : TradingSignals
  timestamp : ℕ
deriving DecidableEq

/-- Model of TechnicalIndicators.calculateAll (src/unnamed/part_002 lines
251-285). The wall-clock read `new Date().toISOString()` becomes the explicit
parameter `now`, and `Math.sqrt` the parameter `sqrtFn`. The source first
stores a placeholder signal set computed from an empty indicator object and
immediately overwrites it at line 278 with the value recorded here. -/
def calculateAll (sqrtFn : ℚ → ℚ) (now : ℕ) (ohlcv : List Candle) : TechnicalIndicatorsResult :=
  let closes := ohlcv.map fun c => JSNum.num c.closeP
  let highs := ohlcv.map fun c => JSNum.num c.highP
  let lows := ohlcv.map fun c => JSNum.num c.lowP
  let rsi := calculateRSI closes 14
  let macd := calculateMACD closes 12 26 9
  let bollinger := calculateBollingerBands sqrtFn closes 20 2
  { sma20 := calculateSMA closes 20
    sma50 := calculateSMA closes 50
    ema12 := calculateEMA closes 12
    ema26 := calculateEMA closes 26
    rsi := rsi
    macd := macd
    bollinger := bollinger
    stochastic := calculateStochastic highs lows closes 14 3
    atr := calculateATR highs lows closes 14
    williamsR := calculateWilliamsR highs lows closes 14
    cci := calculateCCI highs lows closes 20
    supportResistance := detectSupportResistance closes 20
    signals := generateTradingSignals rsi macd bollinger closes
    timestamp := now }

/-- The indicator fields of a snapshot: everything except the `timestamp`
wall-clock field. -/
def indicatorFields (r : TechnicalIndicatorsResult) :=
  (r.sma20, r.sma50, r.ema12, r.ema26, r.rsi, r.macd, r.bollinger, r.stochastic,
    r.atr, r.williamsR, r.cci, r.supportResistance, r.signals)

/-! ## PriceMonitor: candle history (src/src/monitors/PriceMonitor.ts 116-141) -/

/-- Model of PriceMonitor.updatePriceHistory for one incoming candle: a
strictly newer candle is appended (with `slice(-1000)` eviction when the
length exceeds 1000), a candle with the same timestamp as the last replaces
it in place, and an older candle is dropped. -/
def updatePriceHistory (history : List Candle) (newCandle : Candle) : List Candle :=
  match history.getLast? with
  | none =>
      let h := history ++ [newCandle]
      if 1000 < h.length then h.drop (h.length - 1000) else h
  | some lastCandle =>
      if lastCandle.ts < newCandle.ts then
        let h := history ++ [newCandle]
        if 1000 < h.length then h.drop (h.length - 1000) else h
      else if newCandle.ts = lastCandle.ts then history.dropLast ++ [newCandle]
      else history

/-- A sequence of PriceMonitor.updatePriceHistory steps. -/
def applyCandles (history : List Candle) (cs : List Candle) : List Candle :=
  cs.foldl updatePriceHistory history

/-- Timestamps are strictly increasing along the stored history. -/
def StrictlyIncreasing (history : List Candle) : Prop :=
  List.Chain' (fun a b => a.ts < b.ts) history

/-! ## PriceMonitor: price alerts (src/src/monitors/PriceMonitor.ts 163-251) -/

/-- Alert direction (`'above' | 'below'`). -/
inductive AlertType where
  | above
  | below
deriving DecidableEq

/-- One stored price alert (callback and creation time omitted: no claim
reads them). -/
structure PriceAlert where
  id : String
  symbol : String
  targetPrice : ℚ
  type : AlertType
  triggered : Bool
deriving DecidableEq

/-- One emitted `price_alert` event (`PriceAlertData`). -/
structure PriceAlertData where
  id : String
  symbol : String
  currentPrice : ℚ
  targetPrice : ℚ
  type : AlertType
  timestamp : ℕ
deriving DecidableEq

/-- Trigger condition of PriceMonitor.checkPriceAlerts lines 218-222:
`above` fires at `price >= target`, `below` at `price <= target`. -/
def alertShouldTrigger (a : PriceAlert) (price : ℚ) : Bool :=
  (a.type == AlertType.above && decide (a.targetPrice ≤ price)) ||
  (a.type == AlertType.below && decide (price ≤ a.targetPrice))

/-- One iteration of the alert loop at a usable reference price: an already
triggered alert is skipped, a firing alert is marked triggered and emits one
event. -/
def processAlert (now : ℕ) (price : ℚ) (a : PriceAlert) : PriceAlert × Option PriceAlertData :=
  if a.triggered then (a, none)
  else if alertShouldTrigger a price then
    ({ a with triggered := true }, some ⟨a.id, a.symbol, price, a.targetPrice, a.type, now⟩)
  else (a, none)

/-- Model of PriceMonitor.checkPriceAlerts (lines 203-251) for one symbol:
`binancePrice` is `prices.binance?.price` (`none` when the reference exchange
returned no quote). The guard `if (!currentPrice) continue` skips every alert
both when the price is absent and when it equals 0, since 0 is falsy in
JavaScript. After the loop the alert store keeps only non-triggered alerts.
Returns the emitted events in order and the surviving active set. -/
def checkPriceAlerts (now : ℕ) (alerts : List PriceAlert) (binancePrice : Option ℚ) :
    List PriceAlertData × List PriceAlert :=
  match binancePrice with
  | none => ([], alerts.filter fun a => !a.triggered)
  | some p =>
      if p = 0 then ([], alerts.filter fun a => !a.triggered)
      else
        let processed := alerts.map (processAlert now p)
        (processed.filterMap Prod.snd, (processed.map Prod.fst).filter fun a => !a.triggered)

/-- A sequence of checkPriceAlerts calls, each with its own clock reading and
reference price; returns all emitted events. -/
def runChecks (alerts : List PriceAlert) : List (ℕ × Option ℚ) → List PriceAlertData
  | [] => []
  | (now, p) :: rest =>
      let r := checkPriceAlerts now alerts p
      r.1 ++ runChecks r.2 rest

/-- Number of emitted events carrying alert id `i`. -/
def eventCountForId (i : String) (evs : List PriceAlertData) : ℕ :=
  evs.countP fun e => e.id == i

/-- Number of stored non-triggered alerts with id `i`. -/
def activeCountForId (i : String) (alerts : List PriceAlert) : ℕ :=
  alerts.countP fun a => a.id == i && !a.triggered

/-! ## PriceMonitor: anomaly detection (src/src/monitors/PriceMonitor.ts 334-370) -/

/-- Anomaly classification. -/
inductive AnomalyType where
  | SPIKE
  | DROP
deriving DecidableEq

/-- Anomaly severity. -/
inductive AnomalySeverity where
  | HIGH
  | MEDIUM
deriving DecidableEq

/-- One emitted `price_anomaly` event. -/
structure PriceAnomaly where
  symbol : String
  currentPrice : ℚ
  avgPrice : ℚ
  zScore : JSNum
  threshold : ℚ
  type : AnomalyType
  severity : AnomalySeverity
  timestamp : ℕ
deriving DecidableEq

/-- Model of PriceMonitor.detectPriceAnomalies (lines 334-370): with at least
20 stored candles, the mean and population standard deviation of the first 19
of the last 20 closes are computed, and
`zScore = |(current - mean) / stdDev|` follows JavaScript division — there is
no guard for `stdDev == 0`. `Math.sqrt` is the abstract `sqrtFn` and the
wall clock is `now`. -/
def detectPriceAnomalies (sqrtFn : ℚ → ℚ) (now : ℕ) (symbol : String) (threshold : ℚ)
    (history : List Candle) : Option PriceAnomaly :=
  if history.length < 20 then none
  else
    let recentPrices := (history.drop (history.length - 20)).map fun c => c.closeP
    let currentPrice := recentPrices.getD (recentPrices.length - 1) 0
    let previousPrices := recentPrices.dropLast
    let avgPrice := (previousPrices.foldl (· + ·) 0) / (previousPrices.length : ℚ)
    let variance :=
      (previousPrices.foldl (fun sum p => sum + (p - avgPrice) * (p - avgPrice)) 0) /
        (previousPrices.length : ℚ)
    let stdDev := sqrtFn variance
    let zScore := jsAbs (jsDiv (.num (currentPrice - avgPrice)) (.num stdDev))
    if jsGtB zScore (.num threshold) then
      some { symbol := symbol
             currentPrice := currentPrice
             avgPrice := avgPrice
             zScore := jsToFixed2 zScore
             threshold := threshold
             type := if avgPrice < currentPrice then .SPIKE else .DROP
             severity := if jsGtB zScore (.num (threshold * 2)) then .HIGH else .MEDIUM
             timestamp := now }
    else none

/-! ## Arbitrage scanner (ExchangeManager, src/unnamed/part_000 lines 1009-1040)
and its emission by the scheduler (PriceMonitor.broadcastArbitrageOpportunities,
src/src/monitors/PriceMonitor.ts lines 143-161). -/

/-- One emitted arbitrage opportunity. The `percentage` field is the source's
`percentage.toFixed(3)` string, kept as the number it parses back to. -/
structure ArbitrageOpportunity where
  symbol : String
  buyExchange : String
  sellExchange : String
  buyPrice : ℚ
  sellPrice : ℚ
  priceDifference : ℚ
  percentage : JSNum
  timestamp : ℕ
deriving DecidableEq

/-- The spread percentage of one pair of quotes:
`|p1 - p2| / ((p1 + p2) / 2) * 100`, with JavaScript division (a zero average
price yields a special value). -/
def arbPct (p1 p2 : ℚ) : JSNum :=
  jsMul (jsDiv (.num |p1 - p2|) (.num ((p1 + p2) / 2))) (.num 100)

/-- The opportunity record built for one qualifying pair (lines 1025-1034):
the cheaper venue buys, the pricier sells. -/
def mkOpportunity (now : ℕ) (symbol e1 e2 : String) (p1 p2 : ℚ) : ArbitrageOpportunity :=
  { symbol := symbol
    buyExchange := if p1 < p2 then e1 else e2
    sellExchange := if p1 < p2 then e2 else e1
    buyPrice := min p1 p2
    sellPrice := max p1 p2
    priceDifference := |p1 - p2|
    percentage := jsToFixed3 (arbPct p1 p2)
    timestamp := now }

/-- All index pairs `i < j` of the available quotes, in the double-loop order
of lines 1015-1018. -/
def allPairs : List (String × ℚ) → List ((String × ℚ) × (String × ℚ))
  | [] => []
  | x :: xs => xs.map (fun y => (x, y)) ++ allPairs xs

/-- Total order on the stored percentages used to model
`sort((a, b) => parseFloat(b.percentage) - parseFloat(a.percentage))`: on
values other than `NaN` it agrees with the JavaScript comparator; a `NaN`
key (for which the JavaScript sort order is unspecified) is placed below
everything to keep the relation total. -/
def jsKeyLe : JSNum → JSNum → Bool
  | .nan, _ => true
  | _, .nan => false
  | .neginf, _ => true
  | _, .neginf => false
  | .num a, .num b => decide (a ≤ b)
  | .num _, .inf => true
  | .inf, .num _ => false
  | .inf, .inf => true

/-- Descending comparison on the emitted percentage field. -/
def arbSortLe (a b : ArbitrageOpportunity) : Bool := jsKeyLe b.percentage a.percentage

/-- Model of ExchangeManager.calculateArbitrageOpportunities
(src/unnamed/part_000 lines 1009-1040) on the non-null quotes of one symbol:
every pair with spread percentage strictly above the hardcoded `0.1` yields
one opportunity, and the list is sorted descending by the stored (3-decimal)
percentage. ECMAScript `Array.prototype.sort` is a stable sort, and a stable
sort under a total preorder has one possible output, here written as a stable
insertion sort. -/
def calculateArbitrageOpportunities (now : ℕ) (symbol : String)
    (validPrices : List (String × ℚ)) : List ArbitrageOpportunity :=
  List.insertionSort (fun a b => arbSortLe a b = true)
    ((allPairs validPrices).filterMap fun pr =>
      if jsGtB (arbPct pr.1.2 pr.2.2) (.num (1 / 10)) then
        some (mkOpportunity now symbol pr.1.1 pr.2.1 pr.1.2 pr.2.2)
      else none)

/-- Model of PriceMonitor.broadcastArbitrageOpportunities (lines 143-161):
concatenates the per-symbol lists in watch-list order and, when anything was
found, emits the first 10 entries of that concatenation. -/
def broadcastArbitrageOpportunities (now : ℕ)
    (perSymbol : List (String × List (String × ℚ))) : Option (List ArbitrageOpportunity) :=
  let opportunities :=
    (perSymbol.map fun sq => calculateArbitrageOpportunities now sq.1 sq.2).flatten
  if opportunities.length = 0 then none else some (opportunities.take 10)

/-- Modelled from the spec for comparison: "Results across all pairs (and, at
the scheduler level, across all watched symbols) are sorted descending by
`pct` and truncated to a configured maximum count (default 10-20) before
emission" — the global top ten of a combined opportunity list. -/
def specGlobalTopTen (opps : List ArbitrageOpportunity) : List ArbitrageOpportunity :=
  (List.insertionSort (fun a b => arbSortLe a b = true) opps).take 10

/-- The exact (unrounded) spread percentage reconstructed from an emitted
opportunity. -/
def exactPctOf (o : ArbitrageOpportunity) : ℚ :=
  o.priceDifference / ((o.buyPrice + o.sellPrice) / 2) * 100

/-! ## Concrete inputs used by the claim evaluations -/

/-- A square-root stand-in that is correct at 0, the only point any theorem
needs. -/
def sqrtZero : ℚ → ℚ := fun _ => 0

/-- A candle with all four prices equal to `c`. -/
def candleAt (ts : ℤ) (c : ℚ) : Candle := ⟨ts, c, c, c, c, 0⟩

/-- Twenty candles: nineteen closes of 10, then one close of 20. The
population standard deviation of the first nineteen of the last twenty closes
is 0. -/
def histNineteenTensThenTwenty : List Candle :=
  ((List.range 19).map fun i => candleAt i 10) ++ [candleAt 19 20]

/-- Twenty-one candles: twenty closes of 10, then one close of 20; its last
twenty closes are nineteen 10s followed by 20. -/
def histTwentyTensThenTwenty : List Candle :=
  ((List.range 20).map fun i => candleAt i 10) ++ [candleAt 20 20]

/-- One active alert: symbol BTC/USDT, target 100, direction above. -/
def alertA : PriceAlert := ⟨"id1", "BTC/USDT", 100, .above, false⟩

/-- Five quotes 100..104 for one symbol: all ten pairs spread more than 0.1
percent. -/
def quotesA : List (String × ℚ) :=
  [("e1", 100), ("e2", 101), ("e3", 102), ("e4", 103), ("e5", 104)]

/-- Two quotes 100 and 200 for a second symbol: spread 66.67 percent, the
largest overall. -/
def quotesB : List (String × ℚ) := [("f1", 100), ("f2", 200)]

/-- Four quotes whose four qualifying pairs all round to a stored percentage
of 0.200 while their exact spread percentages differ. -/
def quotesTie : List (String × ℚ) :=
  [("a", 1997999), ("b", 2002001), ("c", 1997996), ("d", 2002004)]

/-! ## Theorems -/

section Theorems

/- The Batteries rational operations are `@[irreducible]`; concrete runs of
the models are settled by `decide`, which needs them to unfold. -/
attribute [local semireducible] Rat.add Rat.mul Rat.sub Rat.inv Rat.ofScientific

/-- C1: the claim says every calculateRSI output lies in [0,100], that an
output index with smoothed avgLoss 0 carries the value 100, and that no
output element is NaN. The code violates it: on a flat close series (sixteen
closes of 10, period 14) both smoothed averages are 0, so `rs = 0/0` is NaN
and the single output element is NaN instead of 100. -/
theorem C1_rsi_flat_series_nan :
    calculateRSI (List.replicate 16 (.num 10)) 14 = [.nan] := by decide

set_option maxRecDepth 8000 in
/-- C2: the claim says a zero population standard deviation over the first 19
of the last 20 closes makes detectPriceAnomalies return null. The code has no
such guard: on twenty candles closing at nineteen 10s then 20 with threshold
2, the standard deviation is 0, the z-score is `10 / 0 = Infinity`, and a
SPIKE anomaly of HIGH severity is returned and emitted instead of null. -/
theorem C2_anomaly_zero_stddev_emits (sqrtFn : ℚ → ℚ) (now : ℕ) (h : sqrtFn 0 = 0) :
    detectPriceAnomalies sqrtFn now "BTC/USDT" 2 histNineteenTensThenTwenty =
      some ⟨"BTC/USDT", 20, 10, .inf, 2, .SPIKE, .HIGH, now⟩ := by
  have hs : sqrtFn = fun q => if q = 0 then (0 : ℚ) else sqrtFn q := by
    funext q
    by_cases hq : q = 0
    · simp [hq, h]
    · simp [hq]
  rw [hs]
  rfl

/-- Witness for C2 at the concrete square root `sqrtZero` and clock 0. -/
theorem C2_anomaly_zero_stddev_emits_witness :
    detectPriceAnomalies sqrtZero 0 "BTC/USDT" 2 histNineteenTensThenTwenty =
      some ⟨"BTC/USDT", 20, 10, .inf, 2, .SPIKE, .HIGH, 0⟩ :=
  C2_anomaly_zero_stddev_emits sqrtZero 0 rfl

set_option maxRecDepth 8000 in
/-- C8: a stored close history of twenty 10s followed by a final close of 20,
with threshold 2, makes detectPriceAnomalies report an anomaly of type SPIKE
(through an infinite z-score, since the previous nineteen closes of its last
twenty samples are all equal). -/
theorem C8_spike_detected (sqrtFn : ℚ → ℚ) (now : ℕ) (h : sqrtFn 0 = 0) :
    (detectPriceAnomalies sqrtFn now "BTC/USDT" 2 histTwentyTensThenTwenty).map
        (fun a => a.type) = some .SPIKE := by
  have hs : sqrtFn = fun q => if q = 0 then (0 : ℚ) else sqrtFn q := by
    funext q
    by_cases hq : q = 0
    · simp [hq, h]
    · simp [hq]
  rw [hs]
  rfl

/-- Witness for C8 at the concrete square root `sqrtZero` and clock 0. -/
theorem C8_spike_detected_witness :
    (detectPriceAnomalies sqrtZero 0 "BTC/USDT" 2 histTwentyTensThenTwenty).map
        (fun a => a.type) = some .SPIKE :=
  C8_spike_detected sqrtZero 0 rfl

/-- C7 counterexample: calculateEMA on an input of length 3 with period 2
returns 3 elements, not `3 - 2 + 1 = 2`, so the EMA is not aligned to the end
of the input shortened by `period - 1` as the claim states. -/
theorem C7_ema_length_counterexample :
    (calculateEMA [.num 1, .num 2, .num 3] 2).length ≠ 3 - 2 + 1 := by decide

/-- C7 amended: for inputs shorter than the period both calculateSMA and
calculateEMA return the empty sequence; for an input of length `n >= period`
(period at least 1) calculateSMA returns `n - period + 1` values, but
calculateEMA returns all `n` values, seeded at the first data point. -/
theorem C7_indicator_alignment_amended (data : List JSNum) (period : ℕ) (h : 1 ≤ period) :
    (data.length < period → calculateSMA data period = [] ∧ calculateEMA data period = []) ∧
    (period ≤ data.length →
      (calculateSMA data period).length = data.length - period + 1 ∧
      (calculateEMA data period).length = data.length) := by
  constructor
  · intro hlt
    constructor
    · unfold calculateSMA
      rw [if_pos hlt]
    · unfold calculateEMA
      rw [if_pos hlt]
  · intro hge
    have hnlt : ¬ data.length < period := not_lt.mpr hge
    constructor
    · unfold calculateSMA
      rw [if_neg hnlt]
      simp only [List.length_map, List.length_range']
      omega
    · unfold calculateEMA
      rw [if_neg hnlt]
      cases data with
      | nil => simp only [List.length_nil] at hge; omega
      | cons d rest => simp [List.length_scanl]

/-- Witness for C7 at the concrete input `[1, 2, 3]` with period 2. -/
theorem C7_indicator_alignment_witness :
    (([.num 1, .num 2, .num 3] : List JSNum).length < 2 →
      calculateSMA [.num 1, .num 2, .num 3] 2 = [] ∧
      calculateEMA [.num 1, .num 2, .num 3] 2 = []) ∧
    (2 ≤ ([.num 1, .num 2, .num 3] : List JSNum).length →
      (calculateSMA [.num 1, .num 2, .num 3] 2).length =
        ([.num 1, .num 2, .num 3] : List JSNum).length - 2 + 1 ∧
      (calculateEMA [.num 1, .num 2, .num 3] 2).length =
        ([.num 1, .num 2, .num 3] : List JSNum).length) :=
  C7_indicator_alignment_amended [.num 1, .num 2, .num 3] 2 (by decide)

/-- C9 counterexample: two runs of calculateAll on the same (empty) candle
snapshot at different wall-clock instants are not bit-identical, because the
timestamp field records the clock. -/
theorem C9_timestamp_counterexample :
    calculateAll sqrtZero 0 [] ≠ calculateAll sqrtZero 1 [] := by decide

/-- C9 amended: two runs of calculateAll on equal candle snapshots (and the
same square-root routine) agree on every indicator field; only the
wall-clock timestamp field can differ between the runs. -/
theorem C9_calculateAll_deterministic_amended (sqrtFn : ℚ → ℚ) (t1 t2 : ℕ)
    (ohlcv : List Candle) :
    indicatorFields (calculateAll sqrtFn t1 ohlcv) =
      indicatorFields (calculateAll sqrtFn t2 ohlcv) := rfl

/-- C10: a present reference quote with price 0 is falsy in JavaScript, so
checkPriceAlerts skips every alert exactly as when the quote is absent: no
event is emitted (in particular no ABOVE alert with target 0 and no BELOW
alert with nonnegative target fires, although 0 satisfies their comparisons)
and every non-triggered alert, whatever its type and target, stays in the
active set. -/
theorem C10_zero_price_skips_alerts (now : ℕ) (alerts : List PriceAlert) (a : PriceAlert)
    (ha : a ∈ alerts) (htr : a.triggered = false) :
    (checkPriceAlerts now alerts (some 0)).1 = [] ∧
    checkPriceAlerts now alerts (some 0) = checkPriceAlerts now alerts none ∧
    a ∈ (checkPriceAlerts now alerts (some 0)).2 := by
  refine ⟨rfl, rfl, ?_⟩
  show a ∈ alerts.filter fun x => !x.triggered
  exact List.mem_filter.mpr ⟨ha, by simp [htr]⟩

/-- Witness for C10: an ABOVE alert with target 0 does not fire at price 0
and remains active. -/
theorem C10_zero_price_skips_alerts_witness :
    (checkPriceAlerts 5 [PriceAlert.mk "z" "S" 0 .above false] (some 0)).1 = [] ∧
    checkPriceAlerts 5 [PriceAlert.mk "z" "S" 0 .above false] (some 0) =
      checkPriceAlerts 5 [PriceAlert.mk "z" "S" 0 .above false] none ∧
    PriceAlert.mk "z" "S" 0 .above false ∈
      (checkPriceAlerts 5 [PriceAlert.mk "z" "S" 0 .above false] (some 0)).2 :=
  C10_zero_price_skips_alerts 5 [PriceAlert.mk "z" "S" 0 .above false]
    (PriceAlert.mk "z" "S" 0 .above false) (by decide) rfl

/-- Appending a strictly newer candle keeps the timestamps strictly
increasing. -/
theorem strictlyIncreasing_append_newer {history : List Candle} {c lastC : Candle}
    (h1 : StrictlyIncreasing history) (hL : history.getLast? = some lastC)
    (hlt : lastC.ts < c.ts) : StrictlyIncreasing (history ++ [c]) := by
  apply List.chain'_append.mpr
  refine ⟨h1, List.chain'_singleton c, ?_⟩
  intro x hx y hy
  rw [hL] at hx
  simp only [Option.mem_def, Option.some.injEq] at hx
  simp only [List.head?_cons, Option.mem_def, Option.some.injEq] at hy
  subst hx
  subst hy
  exact hlt

/-- The strictly newer branch of updatePriceHistory: the candle is appended
and the front is evicted exactly when the cap is passed. -/
theorem updatePriceHistory_append {history : List Candle} {c lastC : Candle}
    (hL : history.getLast? = some lastC) (hlt : lastC.ts < c.ts)
    (h2 : history.length ≤ 1000) :
    updatePriceHistory history c = (history ++ [c]).drop (history.length + 1 - 1000) := by
  unfold updatePriceHistory
  rw [hL]
  simp only [if_pos hlt]
  by_cases hlen : 1000 < (history ++ [c]).length
  · rw [if_pos hlen]
    simp only [List.length_append, List.length_cons, List.length_nil]
  · rw [if_neg hlen]
    simp only [List.length_append, List.length_cons, List.length_nil] at hlen
    rw [show history.length + 1 - 1000 = 0 by omega, List.drop_zero]

/-- The equal timestamp branch of updatePriceHistory: the last candle is
replaced in place. -/
theorem updatePriceHistory_replace {history : List Candle} {c lastC : Candle}
    (hL : history.getLast? = some lastC) (heq : c.ts = lastC.ts) :
    updatePriceHistory history c = history.dropLast ++ [c] := by
  have hnlt : ¬ lastC.ts < c.ts := by rw [heq]; exact lt_irrefl _
  unfold updatePriceHistory
  rw [hL]
  simp only [if_neg hnlt, if_pos heq]

/-- The stale branch of updatePriceHistory: an older candle is dropped. -/
theorem updatePriceHistory_drop_old {history : List Candle} {c lastC : Candle}
    (hL : history.getLast? = some lastC) (hgt : c.ts < lastC.ts) :
    updatePriceHistory history c = history := by
  unfold updatePriceHistory
  rw [hL]
  simp only [if_neg (lt_asymm hgt), if_neg (ne_of_lt hgt)]

set_option maxRecDepth 40000 in
/-- One updatePriceHistory step preserves the strictly-increasing-timestamp
invariant and the 1000-candle cap. -/
theorem updatePriceHistory_step (history : List Candle) (c : Candle)
    (h1 : StrictlyIncreasing history) (h2 : history.length ≤ 1000) :
    StrictlyIncreasing (updatePriceHistory history c) ∧
      (updatePriceHistory history c).length ≤ 1000 := by
  cases hL : history.getLast? with
  | none =>
      have hnil : history = [] := List.getLast?_eq_none_iff.mp hL
      subst hnil
      unfold updatePriceHistory
      constructor
      · exact List.chain'_singleton c
      · simp
  | some lastC =>
      by_cases hlt : lastC.ts < c.ts
      · rw [updatePriceHistory_append hL hlt h2]
        constructor
        · exact List.Chain'.drop (strictlyIncreasing_append_newer h1 hL hlt) _
        · simp only [List.length_drop, List.length_append, List.length_cons, List.length_nil]
          omega
      · by_cases heq : c.ts = lastC.ts
        · rw [updatePriceHistory_replace hL heq]
          have hform := List.dropLast_append_getLast? lastC hL
          constructor
          · apply List.chain'_append.mpr
            refine ⟨List.Chain'.init h1, List.chain'_singleton c, ?_⟩
            intro x hx y hy
            simp only [List.head?_cons, Option.mem_def, Option.some.injEq] at hy
            subst hy
            rw [heq]
            have h1' := h1
            rw [← hform] at h1'
            exact (List.chain'_append.mp h1').2.2 x hx lastC (by simp)
          · have hne : history ≠ [] := by
              intro hcon
              rw [hcon] at hL
              exact Option.noConfusion hL
            have : history.dropLast.length + 1 = history.length := by
              rw [List.length_dropLast]
              cases history with
              | nil => exact absurd rfl hne
              | cons x xs => simp
            simp only [List.length_append, List.length_cons, List.length_nil]
            omega
        · rw [updatePriceHistory_drop_old hL (lt_of_le_of_ne (not_lt.mp hlt) heq)]
          exact ⟨h1, h2⟩

/-- Any sequence of updatePriceHistory steps preserves the invariant. -/
theorem applyCandles_invariant (cs : List Candle) :
    ∀ history, StrictlyIncreasing history → history.length ≤ 1000 →
      StrictlyIncreasing (applyCandles history cs) ∧ (applyCandles history cs).length ≤ 1000 := by
  induction cs with
  | nil => intro history h1 h2; exact ⟨h1, h2⟩
  | cons c cs ih =>
      intro history h1 h2
      have step := updatePriceHistory_step history c h1 h2
      have := ih (updatePriceHistory history c) step.1 step.2
      simpa [applyCandles] using this

/-- C4: starting from a stored history with strictly increasing timestamps
and at most 1000 candles (the invariant the monitor maintains), any sequence
of updatePriceHistory steps keeps the timestamps strictly increasing and the
length at most 1000; moreover a single step appends a strictly newer candle
(evicting the front exactly when the cap is passed, keeping the most recent
1000 in oldest-first order), replaces the last candle in place on an equal
timestamp, and drops an older candle unchanged. -/
theorem C4_candle_history_invariant (history : List Candle) (cs : List Candle)
    (c lastC : Candle) (h1 : StrictlyIncreasing history) (h2 : history.length ≤ 1000) :
    StrictlyIncreasing (applyCandles history cs) ∧
    (applyCandles history cs).length ≤ 1000 ∧
    (history = [] → updatePriceHistory history c = [c]) ∧
    (history.getLast? = some lastC → lastC.ts < c.ts →
      updatePriceHistory history c = (history ++ [c]).drop (history.length + 1 - 1000)) ∧
    (history.getLast? = some lastC → c.ts = lastC.ts →
      updatePriceHistory history c = history.dropLast ++ [c]) ∧
    (history.getLast? = some lastC → c.ts < lastC.ts →
      updatePriceHistory history c = history) := by
  have inv := applyCandles_invariant cs history h1 h2
  refine ⟨inv.1, inv.2, ?_, ?_, ?_, ?_⟩
  · intro hnil
    subst hnil
    unfold updatePriceHistory
    rfl
  · intro hL hlt
    exact updatePriceHistory_append hL hlt h2
  · intro hL heq
    exact updatePriceHistory_replace hL heq
  · intro hL hgt
    exact updatePriceHistory_drop_old hL hgt

/-- Witness for C4 at a one-candle history and one strictly newer candle. -/
theorem C4_candle_history_invariant_witness :
    StrictlyIncreasing (applyCandles [candleAt 0 10] [candleAt 1 11]) ∧
    (applyCandles [candleAt 0 10] [candleAt 1 11]).length ≤ 1000 :=
  ⟨(C4_candle_history_invariant [candleAt 0 10] [candleAt 1 11] (candleAt 2 12) (candleAt 0 10)
      (List.chain'_singleton _) (by decide)).1,
   (C4_candle_history_invariant [candleAt 0 10] [candleAt 1 11] (candleAt 2 12) (candleAt 0 10)
      (List.chain'_singleton _) (by decide)).2.1⟩

/-- Processing an alert list at one usable price: each emitted event consumes
one active alert with its id, so events plus surviving active alerts with a
given id never exceed the active alerts that went in. -/
theorem processed_count_le (now : ℕ) (p : ℚ) (i : String) (alerts : List PriceAlert) :
    eventCountForId i ((alerts.map (processAlert now p)).filterMap Prod.snd) +
      activeCountForId i (((alerts.map (processAlert now p)).map Prod.fst).filter
        fun a => !a.triggered) ≤ activeCountForId i alerts := by
  unfold eventCountForId activeCountForId
  induction alerts with
  | nil => simp
  | cons a rest ih =>
      by_cases ht : a.triggered = true
      · simp only [List.map_cons, List.filterMap_cons, List.filter_cons, processAlert,
          if_pos ht, List.countP_cons]
        simp [ht] at ih ⊢
        omega
      · replace ht : a.triggered = false := by
          cases h : a.triggered
          · rfl
          · exact absurd h ht
        by_cases hc : alertShouldTrigger a p = true
        · simp only [List.map_cons, List.filterMap_cons, List.filter_cons, processAlert,
            ht, if_pos hc, List.countP_cons]
          simp [ht] at ih ⊢
          by_cases hid : a.id = i <;> simp [hid, ht, List.countP_cons] <;> omega
        · simp only [List.map_cons, List.filterMap_cons, List.filter_cons, processAlert,
            ht, if_neg hc, List.countP_cons]
          simp [ht] at ih ⊢
          by_cases hid : a.id = i <;> simp [hid, ht, List.countP_cons] <;> omega

/-- One checkPriceAlerts call: events with a given id plus surviving active
alerts with that id never exceed the active alerts that went in. -/
theorem checkPriceAlerts_count_le (now : ℕ) (alerts : List PriceAlert) (p? : Option ℚ)
    (i : String) :
    eventCountForId i (checkPriceAlerts now alerts p?).1 +
      activeCountForId i (checkPriceAlerts now alerts p?).2 ≤ activeCountForId i alerts := by
  have hfilter : activeCountForId i (alerts.filter fun a => !a.triggered) ≤
      activeCountForId i alerts := by
    unfold activeCountForId
    rw [List.countP_filter]
    apply le_of_eq
    congr 1
    funext a
    cases a.triggered <;> simp
  match p? with
  | none =>
      simpa [checkPriceAlerts, eventCountForId] using hfilter
  | some p =>
      by_cases hp : p = 0
      · simp only [checkPriceAlerts, if_pos hp]
        simpa [eventCountForId] using hfilter
      · simp only [checkPriceAlerts, if_neg hp]
        exact processed_count_le now p i alerts

/-- Across any sequence of checks, the events carrying a given id never
exceed the active alerts with that id at the start. -/
theorem runChecks_count_le (i : String) (seq : List (ℕ × Option ℚ)) :
    ∀ alerts : List PriceAlert,
      eventCountForId i (runChecks alerts seq) ≤ activeCountForId i alerts := by
  induction seq with
  | nil => intro alerts; simp [runChecks, eventCountForId]
  | cons np rest ih =>
      intro alerts
      obtain ⟨now, p⟩ := np
      have step := checkPriceAlerts_count_le now alerts p i
      have recb := ih (checkPriceAlerts now alerts p).2
      simp only [runChecks]
      unfold eventCountForId at recb step ⊢
      rw [List.countP_append]
      omega

/-- An active alert whose condition holds at a usable price emits its event
during the check. -/
theorem checkPriceAlerts_fires (now : ℕ) (p : ℚ) (alerts : List PriceAlert) (a : PriceAlert)
    (hp : p ≠ 0) (ha : a ∈ alerts) (ht : a.triggered = false)
    (hc : alertShouldTrigger a p = true) :
    1 ≤ eventCountForId a.id (checkPriceAlerts now alerts (some p)).1 := by
  simp only [checkPriceAlerts, if_neg hp]
  have hmem : (⟨a.id, a.symbol, p, a.targetPrice, a.type, now⟩ : PriceAlertData) ∈
      (alerts.map (processAlert now p)).filterMap Prod.snd := by
    apply List.mem_filterMap.mpr
    refine ⟨processAlert now p a, List.mem_map_of_mem _ ha, ?_⟩
    simp only [processAlert, ht, Bool.false_eq_true, if_false, if_pos hc]
  unfold eventCountForId
  exact List.countP_pos_iff.mpr ⟨_, hmem, by simp⟩

/-- C3: an alert fires at most once. Across any sequence of checks, a single
active alert with a given id yields at most one event with that id; the
first check at a usable price satisfying the condition emits exactly one
event and removes the alert from the active set. Concretely, an ABOVE alert
at target 100 is untouched by a check at price 99, fires exactly once at
price 100, and a subsequent check at price 101 adds no further event. -/
theorem C3_alert_fires_at_most_once (i : String) (alerts : List PriceAlert)
    (seq : List (ℕ × Option ℚ)) (a : PriceAlert) (now : ℕ) (p : ℚ)
    (h1 : activeCountForId i alerts = 1) (ha : a ∈ alerts) (hid : a.id = i)
    (ht : a.triggered = false) (hp : p ≠ 0) (hc : alertShouldTrigger a p = true) :
    eventCountForId i (runChecks alerts seq) ≤ 1 ∧
    eventCountForId i (checkPriceAlerts now alerts (some p)).1 = 1 ∧
    activeCountForId i (checkPriceAlerts now alerts (some p)).2 = 0 ∧
    checkPriceAlerts 0 [alertA] (some 99) = ([], [alertA]) ∧
    checkPriceAlerts 1 [alertA] (some 100) =
      ([⟨"id1", "BTC/USDT", 100, 100, .above, 1⟩], []) ∧
    eventCountForId "id1"
      (runChecks [alertA] [(0, some 99), (1, some 100), (2, some 101)]) = 1 := by
  have hrun := runChecks_count_le i seq alerts
  have hstep := checkPriceAlerts_count_le now alerts (some p) i
  have hfire := checkPriceAlerts_fires now p alerts a hp ha ht hc
  rw [hid] at hfire
  refine ⟨by omega, by omega, by omega, by decide, by decide, by decide⟩

/-- Witness for C3 at the concrete alert, prices and check sequence of the
scenario. -/
theorem C3_alert_fires_at_most_once_witness :
    eventCountForId "id1"
      (runChecks [alertA] [(0, some 99), (1, some 100), (2, some 101)]) ≤ 1 :=
  (C3_alert_fires_at_most_once "id1" [alertA] [(0, some 99), (1, some 100), (2, some 101)]
    alertA 1 100 (by decide) (by decide) rfl rfl (by norm_num) (by decide)).1

/-- The counted votes of a signal set sum to the number of entries. -/
theorem votes_split (votes : List (SignalEntry × Bool)) :
    votes.countP (fun v => v.2) + votes.countP (fun v => !v.2) = votes.length := by
  induction votes with
  | nil => rfl
  | cons v vs ih => cases hv : v.2 <;> simp [List.countP_cons, hv] <;> omega

/-- The aggregated strength always lies in the unit interval. -/
theorem generateTradingSignals_strength_bounds (r : List JSNum) (m : MACDResult)
    (b : BollingerBands) (c : List JSNum) :
    0 ≤ (generateTradingSignals r m b c).strength ∧
      (generateTradingSignals r m b c).strength ≤ 1 := by
  simp only [generateTradingSignals]
  split
  · constructor
    · exact le_refl 0
    · exact zero_le_one
  · rename_i h0
    set bull := (signalVotes r m b c).countP (fun v => v.2) with hbull
    set bear := (signalVotes r m b c).countP (fun v => !v.2) with hbear
    have hpos : (0 : ℚ) < ((bull + bear : ℕ) : ℚ) := by
      exact_mod_cast Nat.pos_of_ne_zero h0
    have hnum : (0 : ℚ) ≤ ((bull : ℕ) : ℚ) := Nat.cast_nonneg bull
    have hle : ((bull : ℕ) : ℚ) ≤ ((bull + bear : ℕ) : ℚ) := by
      exact_mod_cast Nat.le_add_right bull bear
    have hr0 : (0 : ℚ) ≤ (bull : ℚ) / ((bull + bear : ℕ) : ℚ) :=
      div_nonneg hnum (le_of_lt hpos)
    have hr1 : (bull : ℚ) / ((bull + bear : ℕ) : ℚ) ≤ 1 :=
      (div_le_one hpos).mpr hle
    constructor
    · have := abs_nonneg ((bull : ℚ) / ((bull + bear : ℕ) : ℚ) - 1 / 2)
      linarith
    · have habs : |(bull : ℚ) / ((bull + bear : ℕ) : ℚ) - 1 / 2| ≤ 1 / 2 :=
        abs_le.mpr ⟨by linarith, by linarith⟩
      linarith

/-- With no vote cast, the aggregation returns the NEUTRAL defaults. -/
theorem generateTradingSignals_no_votes (r : List JSNum) (m : MACDResult)
    (b : BollingerBands) (c : List JSNum) (h : signalVotes r m b c = []) :
    generateTradingSignals r m b c = ⟨.NEUTRAL, 0, []⟩ := by
  unfold generateTradingSignals
  rw [h]
  rfl

/-- With at least one vote, the strength follows the bullish-ratio formula
and the overall verdict follows the 0.6 and 0.4 thresholds. -/
theorem generateTradingSignals_formula (r : List JSNum) (m : MACDResult)
    (b : BollingerBands) (c : List JSNum) (h : signalVotes r m b c ≠ []) :
    (generateTradingSignals r m b c).strength =
      |(((signalVotes r m b c).countP fun v => v.2 : ℕ) : ℚ) /
        ((((signalVotes r m b c).countP fun v => v.2) +
          ((signalVotes r m b c).countP fun v => !v.2) : ℕ) : ℚ) - 1 / 2| * 2 ∧
    ((3 : ℚ) / 5 < (((signalVotes r m b c).countP fun v => v.2 : ℕ) : ℚ) /
        ((((signalVotes r m b c).countP fun v => v.2) +
          ((signalVotes r m b c).countP fun v => !v.2) : ℕ) : ℚ) →
      (generateTradingSignals r m b c).overall = .BULLISH) ∧
    ((((signalVotes r m b c).countP fun v => v.2 : ℕ) : ℚ) /
        ((((signalVotes r m b c).countP fun v => v.2) +
          ((signalVotes r m b c).countP fun v => !v.2) : ℕ) : ℚ) < 2 / 5 →
      (generateTradingSignals r m b c).overall = .BEARISH) ∧
    ((2 : ℚ) / 5 ≤ (((signalVotes r m b c).countP fun v => v.2 : ℕ) : ℚ) /
        ((((signalVotes r m b c).countP fun v => v.2) +
          ((signalVotes r m b c).countP fun v => !v.2) : ℕ) : ℚ) →
      (((signalVotes r m b c).countP fun v => v.2 : ℕ) : ℚ) /
        ((((signalVotes r m b c).countP fun v => v.2) +
          ((signalVotes r m b c).countP fun v => !v.2) : ℕ) : ℚ) ≤ 3 / 5 →
      (generateTradingSignals r m b c).overall = .NEUTRAL) := by
  have h0 : ((signalVotes r m b c).countP fun v => v.2) +
      ((signalVotes r m b c).countP fun v => !v.2) ≠ 0 := by
    rw [votes_split]
    simpa [List.length_eq_zero] using h
  unfold generateTradingSignals
  rw [if_neg h0]
  refine ⟨rfl, ?_, ?_, ?_⟩
  · intro hgt
    dsimp only
    rw [if_pos hgt]
  · intro hlt
    dsimp only
    rw [if_neg (show ¬ ((3:ℚ)/5 <
      (((signalVotes r m b c).countP fun v => v.2 : ℕ) : ℚ) /
        ((((signalVotes r m b c).countP fun v => v.2) +
          ((signalVotes r m b c).countP fun v => !v.2) : ℕ) : ℚ)) from not_lt.mpr (by linarith)),
      if_pos hlt]
  · intro hge hle
    dsimp only
    rw [if_neg (not_lt.mpr hle), if_neg (not_lt.mpr hge)]

/-- C6: generateTradingSignals aggregates component votes into
`strength = |bullish/(bullish+bearish) - 0.5| * 2`, a value in the unit
interval, with overall BULLISH above a bullish ratio of 0.6, BEARISH below
0.4 and NEUTRAL otherwise, and NEUTRAL at strength 0 with no votes; under
the scenario hypotheses (last RSI below 30, MACD histogram crossing from at
most 0 to above 0, last close at or below the lower Bollinger band) all
three components vote BUY and the result is BULLISH at strength 1. -/
theorem C6_signal_aggregation (rsi : List JSNum) (macd : MACDResult)
    (bollinger : BollingerBands) (closes : List JSNum)
    (h1 : 0 < rsi.length)
    (h2 : jsLtB (rsi.getD (rsi.length - 1) .nan) (.num 30) = true)
    (h3 : 2 ≤ macd.histogram.length)
    (h4 : jsGtB (macd.histogram.getD (macd.histogram.length - 1) .nan) (.num 0) = true)
    (h5 : jsLeB (macd.histogram.getD (macd.histogram.length - 2) .nan) (.num 0) = true)
    (h6 : 0 < bollinger.upper.length)
    (h7 : jsLeB (closes.getD (closes.length - 1) .nan)
      (bollinger.lower.getD (bollinger.lower.length - 1) .nan) = true) :
    (generateTradingSignals rsi macd bollinger closes).overall = .BULLISH ∧
    (generateTradingSignals rsi macd bollinger closes).strength = 1 ∧
    (∀ (r : List JSNum) (m : MACDResult) (b : BollingerBands) (c : List JSNum),
      0 ≤ (generateTradingSignals r m b c).strength ∧
        (generateTradingSignals r m b c).strength ≤ 1) ∧
    (∀ (r : List JSNum) (m : MACDResult) (b : BollingerBands) (c : List JSNum),
      signalVotes r m b c = [] → generateTradingSignals r m b c = ⟨.NEUTRAL, 0, []⟩) ∧
    (∀ (r : List JSNum) (m : MACDResult) (b : BollingerBands) (c : List JSNum),
      signalVotes r m b c ≠ [] →
      (generateTradingSignals r m b c).strength =
        |(((signalVotes r m b c).countP fun v => v.2 : ℕ) : ℚ) /
          ((((signalVotes r m b c).countP fun v => v.2) +
            ((signalVotes r m b c).countP fun v => !v.2) : ℕ) : ℚ) - 1 / 2| * 2 ∧
      ((3 : ℚ) / 5 < (((signalVotes r m b c).countP fun v => v.2 : ℕ) : ℚ) /
          ((((signalVotes r m b c).countP fun v => v.2) +
            ((signalVotes r m b c).countP fun v => !v.2) : ℕ) : ℚ) →
        (generateTradingSignals r m b c).overall = .BULLISH) ∧
      ((((signalVotes r m b c).countP fun v => v.2 : ℕ) : ℚ) /
          ((((signalVotes r m b c).countP fun v => v.2) +
            ((signalVotes r m b c).countP fun v => !v.2) : ℕ) : ℚ) < 2 / 5 →
        (generateTradingSignals r m b c).overall = .BEARISH) ∧
      ((2 : ℚ) / 5 ≤ (((signalVotes r m b c).countP fun v => v.2 : ℕ) : ℚ) /
          ((((signalVotes r m b c).countP fun v => v.2) +
            ((signalVotes r m b c).countP fun v => !v.2) : ℕ) : ℚ) →
        (((signalVotes r m b c).countP fun v => v.2 : ℕ) : ℚ) /
          ((((signalVotes r m b c).countP fun v => v.2) +
            ((signalVotes r m b c).countP fun v => !v.2) : ℕ) : ℚ) ≤ 3 / 5 →
        (generateTradingSignals r m b c).overall = .NEUTRAL)) := by
  have hval : signalVotes rsi macd bollinger closes =
      [(⟨"RSI", .BUY, "RSI超卖"⟩, true), (⟨"MACD", .BUY, "MACD金叉"⟩, true),
       (⟨"Bollinger", .BUY, "价格触及下轨"⟩, true)] := by
    unfold signalVotes
    rw [if_pos h1, if_pos h2, if_pos h3, if_pos h6, if_pos h7]
    rw [if_pos (show (jsGtB (macd.histogram.getD (macd.histogram.length - 1) .nan) (.num 0) &&
      jsLeB (macd.histogram.getD (macd.histogram.length - 2) .nan) (.num 0)) = true by
        rw [h4, h5]; rfl)]
    rfl
  have hgts : generateTradingSignals rsi macd bollinger closes =
      ⟨.BULLISH, 1, [⟨"RSI", .BUY, "RSI超卖"⟩, ⟨"MACD", .BUY, "MACD金叉"⟩,
        ⟨"Bollinger", .BUY, "价格触及下轨"⟩]⟩ := by
    unfold generateTradingSignals
    rw [hval]
    norm_num [List.countP_cons]
    rw [show |(1 : ℚ) / 2| = 1 / 2 from abs_of_pos (by norm_num)]
    norm_num
  refine ⟨by rw [hgts], by rw [hgts], generateTradingSignals_strength_bounds,
    generateTradingSignals_no_votes, ?_⟩
  intro r m b c h
  exact generateTradingSignals_formula r m b c h

/-- Witness for C6 at concrete indicator values satisfying the scenario. -/
theorem C6_signal_aggregation_witness :
    (generateTradingSignals [.num 25] ⟨[], [], [.num (-1), .num 1]⟩
      ⟨[.num 200], [.num 150], [.num 100]⟩ [.num 90]).overall = .BULLISH ∧
    (generateTradingSignals [.num 25] ⟨[], [], [.num (-1), .num 1]⟩
      ⟨[.num 200], [.num 150], [.num 100]⟩ [.num 90]).strength = 1 :=
  ⟨(C6_signal_aggregation [.num 25] ⟨[], [], [.num (-1), .num 1]⟩
      ⟨[.num 200], [.num 150], [.num 100]⟩ [.num 90] (by decide) (by decide) (by decide)
      (by decide) (by decide) (by decide) (by decide)).1,
   (C6_signal_aggregation [.num 25] ⟨[], [], [.num (-1), .num 1]⟩
      ⟨[.num 200], [.num 150], [.num 100]⟩ [.num 90] (by decide) (by decide) (by decide)
      (by decide) (by decide) (by decide) (by decide)).2.1⟩

/-- The sort key order is transitive. -/
theorem jsKeyLe_trans {x y z : JSNum} (hxy : jsKeyLe x y = true) (hyz : jsKeyLe y z = true) :
    jsKeyLe x z = true := by
  cases x <;> cases y <;> cases z <;> simp_all [jsKeyLe]
  exact le_trans hxy hyz

/-- The sort key order is total. -/
theorem jsKeyLe_total (x y : JSNum) : jsKeyLe x y = true ∨ jsKeyLe y x = true := by
  cases x <;> cases y <;> simp [jsKeyLe]
  exact le_total _ _

/-- The descending comparison on opportunities is transitive. -/
theorem arbSortLe_trans {x y z : ArbitrageOpportunity} (hxy : arbSortLe x y = true)
    (hyz : arbSortLe y z = true) : arbSortLe x z = true :=
  jsKeyLe_trans hyz hxy

/-- The descending comparison on opportunities is total. -/
theorem arbSortLe_total (x y : ArbitrageOpportunity) :
    arbSortLe x y = true ∨ arbSortLe y x = true :=
  (jsKeyLe_total y.percentage x.percentage).imp id id

/-- C5 counterexample: the cross-symbol emission is not the global top ten by
percentage — with eleven opportunities across two symbols the scheduler emits
the first ten of the per-symbol concatenation and drops the largest spread
(66.667 percent) of the second symbol; moreover the per-symbol list, sorted
by the 3-decimal rounded percentage with a stable sort, need not be
descending in the exact spread percentage when rounded values tie. -/
theorem C5_arbitrage_counterexample :
    broadcastArbitrageOpportunities 0 [("A", quotesA), ("B", quotesB)] ≠
      some (specGlobalTopTen
        ((([("A", quotesA), ("B", quotesB)] : List (String × List (String × ℚ))).map
          fun sq => calculateArbitrageOpportunities 0 sq.1 sq.2).flatten)) ∧
    ¬ List.Pairwise (fun x y => exactPctOf y ≤ exactPctOf x)
      (calculateArbitrageOpportunities 0 "S" quotesTie) := by
  constructor
  · decide
  · decide

/-- C5 amended: per symbol, calculateArbitrageOpportunities emits exactly one
opportunity per unordered pair of quotes and is a permutation of the
qualifying pairs; the emitted list is sorted descending by the stored
(3-decimal) percentage; for positive prices a pair qualifies exactly when its
exact spread percentage strictly exceeds 0.1; the cheaper venue buys at the
minimum price and the pricier sells at the maximum; and the scheduler emits
the first ten entries of the per-symbol concatenation. -/
theorem C5_arbitrage_pairs_amended (now : ℕ) (sym e1 e2 : String) (p1 p2 : ℚ)
    (quotes : List (String × ℚ)) (perSymbol : List (String × List (String × ℚ)))
    (h1 : 0 < p1) (h2 : 0 < p2) :
    (calculateArbitrageOpportunities now sym quotes).Perm
      ((allPairs quotes).filterMap fun pr =>
        if jsGtB (arbPct pr.1.2 pr.2.2) (.num (1 / 10)) then
          some (mkOpportunity now sym pr.1.1 pr.2.1 pr.1.2 pr.2.2)
        else none) ∧
    List.Pairwise (fun a b => arbSortLe a b = true)
      (calculateArbitrageOpportunities now sym quotes) ∧
    (jsGtB (arbPct p1 p2) (.num (1 / 10)) = true ↔
      1 / 10 < |p1 - p2| / ((p1 + p2) / 2) * 100) ∧
    ((mkOpportunity now sym e1 e2 p1 p2).buyPrice = min p1 p2 ∧
     (mkOpportunity now sym e1 e2 p1 p2).sellPrice = max p1 p2 ∧
     (p1 < p2 → (mkOpportunity now sym e1 e2 p1 p2).buyExchange = e1 ∧
        (mkOpportunity now sym e1 e2 p1 p2).sellExchange = e2) ∧
     (p2 < p1 → (mkOpportunity now sym e1 e2 p1 p2).buyExchange = e2 ∧
        (mkOpportunity now sym e1 e2 p1 p2).sellExchange = e1)) ∧
    ((perSymbol.map fun sq => calculateArbitrageOpportunities now sq.1 sq.2).flatten ≠ [] →
      broadcastArbitrageOpportunities now perSymbol =
        some (((perSymbol.map fun sq =>
          calculateArbitrageOpportunities now sq.1 sq.2).flatten).take 10)) := by
  haveI instTrans : IsTrans ArbitrageOpportunity (fun a b => arbSortLe a b = true) :=
    ⟨fun _ _ _ hab hbc => arbSortLe_trans hab hbc⟩
  haveI instTotal : IsTotal ArbitrageOpportunity (fun a b => arbSortLe a b = true) :=
    ⟨fun a b => arbSortLe_total a b⟩
  refine ⟨?_, ?_, ?_, ?_, ?_⟩
  · unfold calculateArbitrageOpportunities
    exact List.perm_insertionSort _ _
  · unfold calculateArbitrageOpportunities
    exact List.sorted_insertionSort _ _
  · have hsum : (0 : ℚ) < (p1 + p2) / 2 := by linarith
    have havg : ((p1 + p2) / 2 : ℚ) ≠ 0 := ne_of_gt hsum
    unfold arbPct jsGtB
    simp [jsDiv, jsMul, jsLtB, havg]
  · refine ⟨rfl, rfl, ?_, ?_⟩
    · intro hlt
      simp only [mkOpportunity, if_pos hlt]
      exact ⟨trivial, trivial⟩
    · intro hgt
      simp only [mkOpportunity, if_neg (lt_asymm hgt)]
      exact ⟨trivial, trivial⟩
  · intro hne
    unfold broadcastArbitrageOpportunities
    rw [if_neg (fun hlen => hne (List.length_eq_zero.mp hlen))]

/-- Witness for C5 at positive prices 100 and 101: the qualification test is
the exact spread percentage comparison. -/
theorem C5_arbitrage_pairs_amended_witness :
    jsGtB (arbPct 100 101) (.num (1 / 10)) = true ↔
      1 / 10 < |(100 : ℚ) - 101| / ((100 + 101) / 2) * 100 :=
  (C5_arbitrage_pairs_amended 0 "A" "e1" "e2" 100 101 quotesA [("A", quotesA)]
    (by norm_num) (by norm_num)).2.2.1

end Theorems
